import Mathlib

set_option maxRecDepth 8192

/-!
Verification development for the hub-duck email extraction pipeline
(`src/index.js`).  The JavaScript source is shallowly embedded: the
database is a record of row lists, SQL statements become list queries,
and the external collaborators (S3 fetch, OpenAI call, connectivity
probes, connection setup) are oracles supplied through an environment
record.  `JSON.parse` / `JSON.stringify` are modelled by an executable
JSON parser and printer over a `Json` value type; numeric literals are
kept as their raw lexemes because the pipeline never interprets numbers.
-/

/-- The opening brace character. -/
def lbrace : Char := Char.ofNat 123

/-- The closing brace character. -/
def rbrace : Char := Char.ofNat 125

/-- JSON values as produced by `JSON.parse`.  Object fields are kept in
source order (duplicate keys are resolved on lookup, last one winning,
matching JavaScript object semantics). -/
inductive Json where
  | null : Json
  | bool (b : Bool) : Json
  | num (lit : String) : Json
  | str (s : String) : Json
  | arr (elems : List Json) : Json
  | obj (fields : List (String × Json)) : Json
deriving Repr

mutual

/-- Structural equality of JSON values (decidable equality is derived
from it below; the derive handler does not support this nested
inductive). -/
def jsonBeq : Json → Json → Bool
  | Json.null, Json.null => true
  | Json.bool a, Json.bool b => a == b
  | Json.num a, Json.num b => a == b
  | Json.str a, Json.str b => a == b
  | Json.arr a, Json.arr b => jsonBeqList a b
  | Json.obj a, Json.obj b => jsonBeqFields a b
  | _, _ => false

def jsonBeqList : List Json → List Json → Bool
  | [], [] => true
  | a :: as, b :: bs => jsonBeq a b && jsonBeqList as bs
  | _, _ => false

def jsonBeqFields : List (String × Json) → List (String × Json) → Bool
  | [], [] => true
  | (k1, v1) :: as, (k2, v2) :: bs => k1 == k2 && jsonBeq v1 v2 && jsonBeqFields as bs
  | _, _ => false

end

mutual

def jsonBeq_refl : ∀ a : Json, jsonBeq a a = true
  | Json.null => rfl
  | Json.bool _ => by simp [jsonBeq]
  | Json.num _ => by simp [jsonBeq]
  | Json.str _ => by simp [jsonBeq]
  | Json.arr a => by simpa [jsonBeq] using jsonBeqList_refl a
  | Json.obj a => by simpa [jsonBeq] using jsonBeqFields_refl a

def jsonBeqList_refl : ∀ a : List Json, jsonBeqList a a = true
  | [] => rfl
  | x :: xs => by simp [jsonBeqList, jsonBeq_refl x, jsonBeqList_refl xs]

def jsonBeqFields_refl : ∀ a : List (String × Json), jsonBeqFields a a = true
  | [] => rfl
  | (_, v) :: xs => by simp [jsonBeqFields, jsonBeq_refl v, jsonBeqFields_refl xs]

end

mutual

def jsonBeq_eq : ∀ a b : Json, jsonBeq a b = true → a = b
  | Json.null, Json.null, _ => rfl
  | Json.bool a, Json.bool b, h => by
      have hx : a = b := by simpa [jsonBeq] using h
      rw [hx]
  | Json.num a, Json.num b, h => by
      have hx : a = b := by simpa [jsonBeq] using h
      rw [hx]
  | Json.str a, Json.str b, h => by
      have hx : a = b := by simpa [jsonBeq] using h
      rw [hx]
  | Json.arr a, Json.arr b, h => by
      rw [jsonBeqList_eq a b (by simpa [jsonBeq] using h)]
  | Json.obj a, Json.obj b, h => by
      rw [jsonBeqFields_eq a b (by simpa [jsonBeq] using h)]
  | Json.null, Json.bool _, h => by simp [jsonBeq] at h
  | Json.null, Json.num _, h => by simp [jsonBeq] at h
  | Json.null, Json.str _, h => by simp [jsonBeq] at h
  | Json.null, Json.arr _, h => by simp [jsonBeq] at h
  | Json.null, Json.obj _, h => by simp [jsonBeq] at h
  | Json.bool _, Json.null, h => by simp [jsonBeq] at h
  | Json.bool _, Json.num _, h => by simp [jsonBeq] at h
  | Json.bool _, Json.str _, h => by simp [jsonBeq] at h
  | Json.bool _, Json.arr _, h => by simp [jsonBeq] at h
  | Json.bool _, Json.obj _, h => by simp [jsonBeq] at h
  | Json.num _, Json.null, h => by simp [jsonBeq] at h
  | Json.num _, Json.bool _, h => by simp [jsonBeq] at h
  | Json.num _, Json.str _, h => by simp [jsonBeq] at h
  | Json.num _, Json.arr _, h => by simp [jsonBeq] at h
  | Json.num _, Json.obj _, h => by simp [jsonBeq] at h
  | Json.str _, Json.null, h => by simp [jsonBeq] at h
  | Json.str _, Json.bool _, h => by simp [jsonBeq] at h
  | Json.str _, Json.num _, h => by simp [jsonBeq] at h
  | Json.str _, Json.arr _, h => by simp [jsonBeq] at h
  | Json.str _, Json.obj _, h => by simp [jsonBeq] at h
  | Json.arr _, Json.null, h => by simp [jsonBeq] at h
  | Json.arr _, Json.bool _, h => by simp [jsonBeq] at h
  | Json.arr _, Json.num _, h => by simp [jsonBeq] at h
  | Json.arr _, Json.str _, h => by simp [jsonBeq] at h
  | Json.arr _, Json.obj _, h => by simp [jsonBeq] at h
  | Json.obj _, Json.null, h => by simp [jsonBeq] at h
  | Json.obj _, Json.bool _, h => by simp [jsonBeq] at h
  | Json.obj _, Json.num _, h => by simp [jsonBeq] at h
  | Json.obj _, Json.str _, h => by simp [jsonBeq] at h
  | Json.obj _, Json.arr _, h => by simp [jsonBeq] at h

def jsonBeqList_eq : ∀ a b : List Json, jsonBeqList a b = true → a = b
  | [], [], _ => rfl
  | [], _ :: _, h => by simp [jsonBeqList] at h
  | _ :: _, [], h => by simp [jsonBeqList] at h
  | x :: xs, y :: ys, h => by
      have h1 : jsonBeq x y = true ∧ jsonBeqList xs ys = true := by
        simpa [jsonBeqList, Bool.and_eq_true] using h
      rw [jsonBeq_eq x y h1.1, jsonBeqList_eq xs ys h1.2]

def jsonBeqFields_eq : ∀ a b : List (String × Json), jsonBeqFields a b = true → a = b
  | [], [], _ => rfl
  | [], _ :: _, h => by simp [jsonBeqFields] at h
  | _ :: _, [], h => by simp [jsonBeqFields] at h
  | (k1, v1) :: xs, (k2, v2) :: ys, h => by
      have h1 : (k1 == k2) = true ∧ jsonBeq v1 v2 = true ∧ jsonBeqFields xs ys = true := by
        simpa [jsonBeqFields, Bool.and_eq_true, and_assoc] using h
      have hk : k1 = k2 := by simpa using h1.1
      rw [hk, jsonBeq_eq v1 v2 h1.2.1, jsonBeqFields_eq xs ys h1.2.2]

end

instance : DecidableEq Json := fun a b =>
  if h : jsonBeq a b = true then isTrue (jsonBeq_eq a b h)
  else isFalse (fun he => h (he ▸ jsonBeq_refl a))

/-- Property access `j.key` on a parsed JSON value: defined only for
objects (any other non-null value yields `undefined`, i.e. `none`); with
duplicate keys the last occurrence wins, as in JavaScript. -/
def getObjField (j : Json) (key : String) : Option Json :=
  match j with
  | Json.obj fields => ((fields.reverse).find? (fun kv => kv.1 == key)).map (fun kv => kv.2)
  | _ => none

/-- JSON whitespace. -/
def isJsonWs (c : Char) : Bool :=
  c = ' ' || c = '\n' || c = '\t' || c = '\r'

def skipWs : List Char → List Char
  | [] => []
  | c :: cs => if isJsonWs c then skipWs cs else c :: cs

/-- Value of a hexadecimal digit. -/
def hexVal (c : Char) : Option Nat :=
  if '0' ≤ c ∧ c ≤ '9' then some (c.toNat - 48)
  else if 'a' ≤ c ∧ c ≤ 'f' then some (c.toNat - 87)
  else if 'A' ≤ c ∧ c ≤ 'F' then some (c.toNat - 55)
  else none

/-- Body of a JSON string literal (after the opening quote), with the
standard escape sequences.  Fuel-driven; the top-level parser supplies
ample fuel. -/
def parseStringBody : Nat → List Char → List Char → Option (String × List Char)
  | 0, _, _ => none
  | _, [], _ => none
  | fuel + 1, c :: cs, acc =>
    if c = '"' then some (String.mk acc.reverse, cs)
    else if c = '\\' then
      match cs with
      | [] => none
      | e :: cs' =>
        if e = '"' then parseStringBody fuel cs' ('"' :: acc)
        else if e = '\\' then parseStringBody fuel cs' ('\\' :: acc)
        else if e = '/' then parseStringBody fuel cs' ('/' :: acc)
        else if e = 'n' then parseStringBody fuel cs' ('\n' :: acc)
        else if e = 't' then parseStringBody fuel cs' ('\t' :: acc)
        else if e = 'r' then parseStringBody fuel cs' ('\r' :: acc)
        else if e = 'b' then parseStringBody fuel cs' (Char.ofNat 8 :: acc)
        else if e = 'f' then parseStringBody fuel cs' (Char.ofNat 12 :: acc)
        else if e = 'u' then
          match cs' with
          | h1 :: h2 :: h3 :: h4 :: rest =>
            match hexVal h1, hexVal h2, hexVal h3, hexVal h4 with
            | some a, some b, some c2, some d =>
              parseStringBody fuel rest (Char.ofNat (((a * 16 + b) * 16 + c2) * 16 + d) :: acc)
            | _, _, _, _ => none
          | _ => none
        else none
    else parseStringBody fuel cs (c :: acc)

/-- Longest digit run at the head of the input. -/
def spanDigits : List Char → List Char × List Char
  | [] => ([], [])
  | c :: cs =>
    if c.isDigit then
      let (d, r) := spanDigits cs
      (c :: d, r)
    else ([], c :: cs)

/-- A JSON number (sign, integer part, optional fraction and exponent),
returned as its raw lexeme. -/
def parseNumber (cs : List Char) : Option (String × List Char) :=
  let (minusPart, cs1) :=
    match cs with
    | '-' :: r => (['-'], r)
    | _ => (([] : List Char), cs)
  match cs1 with
  | [] => none
  | c :: r =>
    if ¬ c.isDigit then none
    else
      let (intPart, cs2) :=
        if c = '0' then ([c], r)
        else
          let (d, r2) := spanDigits r
          (c :: d, r2)
      let fracRes : Option (List Char × List Char) :=
        match cs2 with
        | '.' :: fr =>
          match spanDigits fr with
          | ([], _) => none
          | (ds, r3) => some ('.' :: ds, r3)
        | _ => some ([], cs2)
      match fracRes with
      | none => none
      | some (fracPart, cs3) =>
        let expRes : Option (List Char × List Char) :=
          match cs3 with
          | e :: er =>
            if e = 'e' ∨ e = 'E' then
              let (sgn, er2) :=
                match er with
                | '+' :: r4 => ((['+'] : List Char), r4)
                | '-' :: r4 => ((['-'] : List Char), r4)
                | _ => ([], er)
              match spanDigits er2 with
              | ([], _) => none
              | (ds, r5) => some (e :: (sgn ++ ds), r5)
            else some ([], cs3)
          | [] => some ([], cs3)
        match expRes with
        | none => none
        | some (expPart, cs4) =>
          some (String.mk (minusPart ++ intPart ++ fracPart ++ expPart), cs4)

mutual

/-- A JSON value.  Fuel decreases at every recursive call; since each
call follows the consumption of at least one input character, any fuel
exceeding thrice the input length is ample. -/
def parseValue : Nat → List Char → Option (Json × List Char)
  | 0, _ => none
  | fuel + 1, cs =>
    match skipWs cs with
    | [] => none
    | c :: rest =>
      if c = lbrace then parseObjBody fuel rest
      else if c = '[' then parseArrBody fuel rest
      else if c = '"' then
        match parseStringBody fuel rest [] with
        | some (s, r) => some (Json.str s, r)
        | none => none
      else
        match c :: rest with
        | 't' :: 'r' :: 'u' :: 'e' :: r => some (Json.bool true, r)
        | 'f' :: 'a' :: 'l' :: 's' :: 'e' :: r => some (Json.bool false, r)
        | 'n' :: 'u' :: 'l' :: 'l' :: r => some (Json.null, r)
        | l =>
          match parseNumber l with
          | some (lit, r) => some (Json.num lit, r)
          | none => none

/-- Array body, after the opening bracket. -/
def parseArrBody : Nat → List Char → Option (Json × List Char)
  | 0, _ => none
  | fuel + 1, cs =>
    match skipWs cs with
    | ']' :: r => some (Json.arr [], r)
    | cs' =>
      match parseElems fuel cs' with
      | some (vs, r) => some (Json.arr vs, r)
      | none => none

/-- One or more comma-separated array elements, up to and including the
closing bracket. -/
def parseElems : Nat → List Char → Option (List Json × List Char)
  | 0, _ => none
  | fuel + 1, cs =>
    match parseValue fuel cs with
    | none => none
    | some (v, r) =>
      match skipWs r with
      | ',' :: r2 =>
        match parseElems fuel r2 with
        | some (vs, r3) => some (v :: vs, r3)
        | none => none
      | ']' :: r2 => some ([v], r2)
      | _ => none

/-- Object body, after the opening brace. -/
def parseObjBody : Nat → List Char → Option (Json × List Char)
  | 0, _ => none
  | fuel + 1, cs =>
    match skipWs cs with
    | [] => none
    | c :: r =>
      if c = rbrace then some (Json.obj [], r)
      else
        match parseMembers fuel (c :: r) with
        | some (ms, r2) => some (Json.obj ms, r2)
        | none => none

/-- One or more `"key": value` members, up to and including the closing
brace. -/
def parseMembers : Nat → List Char → Option (List (String × Json) × List Char)
  | 0, _ => none
  | fuel + 1, cs =>
    match skipWs cs with
    | [] => none
    | c :: r =>
      if c = '"' then
        match parseStringBody fuel r [] with
        | none => none
        | some (k, r2) =>
          match skipWs r2 with
          | ':' :: r3 =>
            match parseValue fuel r3 with
            | none => none
            | some (v, r4) =>
              match skipWs r4 with
              | ',' :: r5 =>
                match parseMembers fuel r5 with
                | some (ms, r6) => some ((k, v) :: ms, r6)
                | none => none
              | c2 :: r5 => if c2 = rbrace then some ([(k, v)], r5) else none
              | [] => none
          | _ => none
      else none

end

/-- `JSON.parse`: the whole input (up to trailing whitespace) must be a
single JSON value. -/
def parseJson (s : String) : Option Json :=
  match parseValue (3 * s.data.length + 3) s.data with
  | some (j, rest) =>
    match skipWs rest with
    | [] => some j
    | _ => none
  | none => none

/-- Hexadecimal digit for a value below 16. -/
def hexDigit (n : Nat) : Char :=
  if n < 10 then Char.ofNat (48 + n) else Char.ofNat (87 + n)

/-- `JSON.stringify` escaping of one character inside a string literal. -/
def escChar (c : Char) : List Char :=
  if c = '"' then ['\\', '"']
  else if c = '\\' then ['\\', '\\']
  else if c = '\n' then ['\\', 'n']
  else if c = '\t' then ['\\', 't']
  else if c = '\r' then ['\\', 'r']
  else if c.toNat = 8 then ['\\', 'b']
  else if c.toNat = 12 then ['\\', 'f']
  else if c.toNat < 32 then ['\\', 'u', '0', '0', hexDigit (c.toNat / 16), hexDigit (c.toNat % 16)]
  else [c]

/-- A quoted, escaped JSON string literal. -/
def quoteChars (s : String) : List Char :=
  '"' :: (s.data.map escChar).flatten ++ ['"']

mutual

/-- `JSON.stringify` (compact form, no added whitespace).  Numeric
values print their stored lexeme. -/
def stringifyVal : Json → List Char
  | Json.null => ['n', 'u', 'l', 'l']
  | Json.bool true => ['t', 'r', 'u', 'e']
  | Json.bool false => ['f', 'a', 'l', 's', 'e']
  | Json.num lit => lit.data
  | Json.str s => quoteChars s
  | Json.arr vs => '[' :: stringifyArr vs ++ [']']
  | Json.obj ms => lbrace :: stringifyFields ms ++ [rbrace]

def stringifyArr : List Json → List Char
  | [] => []
  | [v] => stringifyVal v
  | v :: vs => stringifyVal v ++ ',' :: stringifyArr vs

def stringifyFields : List (String × Json) → List Char
  | [] => []
  | [(k, v)] => quoteChars k ++ ':' :: stringifyVal v
  | (k, v) :: ms => quoteChars k ++ ':' :: stringifyVal v ++ ',' :: stringifyFields ms

end

/-- `JSON.stringify` as a string-valued function. -/
def jsonStringify (j : Json) : String :=
  String.mk (stringifyVal j)

/-! ### Substring machinery (JavaScript `String.prototype.includes`,
`Array.prototype.join`, suffix tests) -/

/-- `p` is a (character-wise) prefix of `l`. -/
def isPrefixList : List Char → List Char → Bool
  | [], _ => true
  | _ :: _, [] => false
  | a :: as, b :: bs => a == b && isPrefixList as bs

/-- JavaScript `hay.includes(sub)`: `sub` occurs contiguously in `hay`. -/
def containsSub (sub : List Char) : List Char → Bool
  | [] => isPrefixList sub []
  | c :: t => isPrefixList sub (c :: t) || containsSub sub t

/-- String-level `hay.includes(sub)`. -/
def containsSubStr (hay sub : String) : Bool :=
  containsSub sub.data hay.data

/-- `l` ends with `s`. -/
def endsWithChars (l s : List Char) : Bool :=
  isPrefixList s.reverse l.reverse

/-- String-level suffix test. -/
def strEndsWith (l s : String) : Bool :=
  endsWithChars l.data s.data

/-- JavaScript `texts.join('\n\n')`. -/
def joinSep : List (List Char) → List Char
  | [] => []
  | [t] => t
  | t :: ts => t ++ '\n' :: '\n' :: joinSep ts

/-! ### The Prompt Combiner (`combinePrompts`, src/index.js lines
177-210) -/

/-- A prompt row as returned by `getPromptsForDuckType`
(`{ promptText: ... }`). -/
structure PromptRow where
  promptText : String
deriving Repr, DecidableEq

/-- The literal phrase whose presence in the joined instructions
suppresses the default schema block. -/
def jsonFormatMarker : String := "JSON format"

/-- The fixed text inserted between the instructions and the email
content: `\n\nAnalyze the following email:\n\n`. -/
def analyzeHeader : String := "\n\nAnalyze the following email:\n\n"

/-- The default JSON schema block appended when no instruction text
mentions `JSON format` (the template literal at src/index.js lines
185-206). -/
def jsonSchemaBlock : String :=
  "Respond in the following JSON format:\n\x7b\n  \"events\": [\n    \x7b\n      \"title\": \"Event title\",\n      \"date\": \"YYYY-MM-DD\",\n      \"time\": \"HH:MM AM/PM\",\n      \"location\": \"Event location\",\n      \"description\": \"Detailed description of the event\"\n    \x7d\n  ],\n  \"actions\": [\n    \x7b\n      \"type\": \"ACTION_TYPE\",\n      \"description\": \"Action description\",\n      \"deadline\": \"YYYY-MM-DD\",\n      \"priority\": \"HIGH|MEDIUM|LOW\"\n    \x7d\n  ],\n  \"summary\": \"Brief summary of the email\",\n  \"categories\": [\"category1\", \"category2\"],\n  \"importance\": \"HIGH|MEDIUM|LOW\"\n\x7d"

/-- Character-level body of `combinePrompts`: join the prompt texts with
blank lines, append the email content, and append the default schema
block unless the joined instructions mention `JSON format`. -/
def combinePromptsChars (emailContent : List Char) (texts : List (List Char)) : List Char :=
  let promptInstructions := joinSep texts
  let base := promptInstructions ++ (analyzeHeader.data ++ (emailContent ++ ['\n', '\n']))
  if containsSub jsonFormatMarker.data promptInstructions then base
  else base ++ jsonSchemaBlock.data

/-- `combinePrompts(emailContent, prompts)` (src/index.js lines
177-210). -/
def combinePrompts (emailContent : String) (prompts : List PromptRow) : String :=
  String.mk (combinePromptsChars emailContent.data (prompts.map (fun p => p.promptText.data)))

/-! ### Data model: the relational store as lists of rows -/

/-- A row of the `ducks` table (the columns this pipeline reads).
`emailPrefixVal` models the `email_prefix` column. -/
structure DuckRow where
  id : String
  org_id : String
  emailPrefixVal : String
  is_active : Bool
  type : String
deriving Repr, DecidableEq

/-- A row of the `"Organization"` table. -/
structure OrgRow where
  id : String
  slug : String
deriving Repr, DecidableEq

/-- A row of the `users` table. -/
structure UserRow where
  id : String
  organization_id : String
  role : String
deriving Repr, DecidableEq

/-- A row of the `duck_prompt_overrides` table. -/
structure OverrideRow where
  duck_id : String
  template_id : String
  is_active : Bool
  prompt_text : String
deriving Repr, DecidableEq

/-- A row of the `duck_types` table. -/
structure DuckTypeRow where
  id : String
  name : String
deriving Repr, DecidableEq

/-- A row of the `duck_type_prompts` table. -/
structure TypePromptRow where
  duck_type_id : String
  prompt_text : String
  is_active : Bool
  version : Nat
deriving Repr, DecidableEq

/-- A row of the `processed_emails` table.  Generated identifiers are
modelled as consecutive naturals; `extracted_data` is NULL until the
update succeeds. -/
structure ProcessedEmailRow where
  id : Nat
  duck_id : String
  message_id : String
  subject : String
  sender : String
  received_at : String
  s3_key : String
  processing_status : String
  extracted_data : Option Json
deriving Repr, DecidableEq

/-- A row of the `email_actions` table (the columns written by
`extractAndSaveEmailActions`).  The `note` keeps the JavaScript value
bound to the parameter. -/
structure ActionRow where
  email_id : Nat
  duck_id : String
  user_id : String
  action_type : String
  context : String
  note : Json
  status : String
deriving Repr, DecidableEq

/-- The database state: one list of rows per table, plus the generator
for `processed_emails.id`. -/
structure Db where
  ducks : List DuckRow
  organizations : List OrgRow
  users : List UserRow
  prompt_templates : List String
  duck_prompt_overrides : List OverrideRow
  duck_types : List DuckTypeRow
  duck_type_prompts : List TypePromptRow
  processedEmails : List ProcessedEmailRow
  emailActions : List ActionRow
  nextEmailId : Nat
deriving Repr, DecidableEq

/-- The email record returned by the external fetch collaborator
(`parseEmailFromS3`); `fromAddr` and `toAddr` model the `from` and `to`
fields (both are Lean keywords). -/
structure ParsedEmail where
  subject : String
  fromAddr : String
  toAddr : String
  date : String
  message_id : String
  content : String
deriving Repr, DecidableEq

/-! ### Tenant Resolver (`getDuckId`, src/index.js lines 48-69) -/

/-- `getDuckId`: split the recipient local-part on `.`; the first token
is the duck's email prefix and the second the organization slug (a
missing second token is `undefined`, which matches no row); select the
active duck joined to its organization. -/
def getDuckId (db : Db) (toAddress : String) : Except String String :=
  let localPart := (toAddress.splitOn "@").headD ""
  let parts := localPart.splitOn "."
  let emailPrefixTok := parts.headD ""
  let orgSlugTok := parts[1]?
  let rows := db.ducks.filter (fun d =>
    d.emailPrefixVal == emailPrefixTok
    && (match orgSlugTok with
        | some s => db.organizations.any (fun o => o.id == d.org_id && o.slug == s)
        | none => false)
    && d.is_active)
  match rows with
  | [] => Except.error ("No active duck found for " ++ toAddress)
  | r :: _ => Except.ok r.id

/-! ### Prompt Resolution Engine (`getPromptsForDuckType`, src/index.js
lines 72-138) -/

/-- The UUID shape check `/^[0-9a-f]\x7b8\x7d-...$/i` from
`getPromptsForDuckType`. -/
def isValidUUID (s : String) : Bool :=
  let cs := s.data
  let isHex := fun (c : Char) =>
    c.isDigit || ('a' ≤ c && c ≤ 'f') || ('A' ≤ c && c ≤ 'F')
  cs.length == 36
  && (cs.take 8).all isHex
  && cs[8]? == some '-'
  && ((cs.drop 9).take 4).all isHex
  && cs[13]? == some '-'
  && (match cs[14]? with | some c => '1' ≤ c && c ≤ '5' | none => false)
  && ((cs.drop 15).take 3).all isHex
  && cs[18]? == some '-'
  && (match cs[19]? with
      | some c => c == '8' || c == '9' || c == 'a' || c == 'b' || c == 'A' || c == 'B'
      | none => false)
  && ((cs.drop 20).take 3).all isHex
  && cs[23]? == some '-'
  && (cs.drop 24).all isHex

/-- Override-tier query: the active rows of `duck_prompt_overrides` for
the duck, joined to `prompt_templates` on `template_id` (the join only
requires the template to exist).  Results keep store order. -/
def activeOverridesQuery (db : Db) (duckId : String) : List OverrideRow :=
  db.duck_prompt_overrides.filter (fun po =>
    po.duck_id == duckId && po.is_active
    && db.prompt_templates.any (fun pt => pt == po.template_id))

/-- Stable insertion into a version-descending list. -/
def insertVersionDesc (x : TypePromptRow) : List TypePromptRow → List TypePromptRow
  | [] => [x]
  | y :: ys => if x.version > y.version then x :: y :: ys else y :: insertVersionDesc x ys

/-- Stable sort by `version DESC` (`ORDER BY dtp.version DESC`). -/
def sortVersionDesc : List TypePromptRow → List TypePromptRow
  | [] => []
  | x :: xs => insertVersionDesc x (sortVersionDesc xs)

/-- Type-tier query: the active rows of `duck_type_prompts` joined to
`duck_types` on the type name, ordered by version descending. -/
def activeTypePromptsQuery (db : Db) (typeName : String) : List TypePromptRow :=
  sortVersionDesc (db.duck_type_prompts.filter (fun tp =>
    tp.is_active && db.duck_types.any (fun dt => dt.id == tp.duck_type_id && dt.name == typeName)))

/-- The hardcoded default-tier instruction. -/
def defaultPromptText : String :=
  "Process this email focusing on key information including:\n1. Events and dates\n2. Action items and deadlines\n3. Important updates or changes\n4. Required responses or decisions"

/-- `getPromptsForDuckType` (src/index.js lines 72-138): validate the
UUID, then override tier, else type tier (via the duck's `type`), else
the single default instruction. -/
def getPromptsForDuckType (db : Db) (duckId : String) : Except String (List PromptRow) :=
  if ¬ isValidUUID duckId then Except.error ("Invalid UUID: " ++ duckId)
  else
    let overrideRows := activeOverridesQuery db duckId
    if overrideRows.length > 0 then
      Except.ok (overrideRows.map (fun po => ⟨po.prompt_text⟩))
    else
      match db.ducks.find? (fun d => d.id == duckId) with
      | none => Except.error ("Duck not found for ID: " ++ duckId)
      | some duck =>
        let typePromptRows := activeTypePromptsQuery db duck.type
        if typePromptRows.length == 0 then
          Except.ok [⟨defaultPromptText⟩]
        else
          Except.ok (typePromptRows.map (fun tp => ⟨tp.prompt_text⟩))

/-! ### Result Persistence (`saveEmailToDb`, `saveProcessedResults`) -/

/-- `saveEmailToDb` (src/index.js lines 326-346): insert the initial
`processed_emails` row with status `RECEIVED` and a NULL payload,
returning the generated identifier. -/
def saveEmailToDb (db : Db) (duckId : String) (parsedEmail : ParsedEmail) (s3Key : String) :
    Db × Nat :=
  let newId := db.nextEmailId
  ({ db with
      processedEmails := db.processedEmails ++ [{
        id := newId
        duck_id := duckId
        message_id := parsedEmail.message_id
        subject := parsedEmail.subject
        sender := parsedEmail.fromAddr
        received_at := parsedEmail.date
        s3_key := s3Key
        processing_status := "RECEIVED"
        extracted_data := none }]
      nextEmailId := newId + 1 }, newId)

/-- `saveProcessedResults` (src/index.js lines 377-394): re-validate
that the AI text parses as JSON; on success update the row to
`PROCESSED` with the parsed payload, on failure change nothing and
propagate an error (the JavaScript parse exception's message is
modelled by a fixed text). -/
def saveProcessedResults (db : Db) (emailId : Nat) (aiResults : String) : Db × Option String :=
  match parseJson aiResults with
  | none => (db, some "Failed to save AI results: Unexpected token in JSON")
  | some parsedResults =>
    ({ db with
        processedEmails := db.processedEmails.map (fun r =>
          if r.id == emailId then
            { r with processing_status := "PROCESSED", extracted_data := some parsedResults }
          else r) }, none)

/-! ### Action Materializer (`extractAndSaveEmailActions` and its
helpers, src/index.js lines 213-323) -/

/-- `getDefaultAdminUserId` (src/index.js lines 309-323): the first
user with role `SCHOOLADMIN`. -/
def getDefaultAdminUserId (db : Db) : Except String String :=
  match db.users.find? (fun u => u.role == "SCHOOLADMIN") with
  | some u => Except.ok u.id
  | none => Except.error "No default admin user found. Please ensure a default admin exists in the database."

/-- `getDefaultUserId` (src/index.js lines 280-306): the first user of
the duck's organization (a missing duck makes the subquery NULL, which
matches no user), else the global admin fallback. -/
def getDefaultUserId (db : Db) (duckId : String) : Except String String :=
  let orgId := (db.ducks.find? (fun d => d.id == duckId)).map (fun d => d.org_id)
  let fromOrg : Option UserRow :=
    match orgId with
    | some oid => db.users.find? (fun u => u.organization_id == oid)
    | none => none
  match fromOrg with
  | some u => Except.ok u.id
  | none => getDefaultAdminUserId db

/-- JavaScript truthiness of a parsed JSON value (a numeric lexeme is
falsy exactly when its mantissa digits are all zero). -/
def isTruthy : Json → Bool
  | Json.null => false
  | Json.bool b => b
  | Json.str s => ¬ s.data.isEmpty
  | Json.num lit =>
    ¬ (lit.data.takeWhile (fun c => c ≠ 'e' ∧ c ≠ 'E')).all (fun c => c.isDigit → c = '0')
  | Json.arr _ => true
  | Json.obj _ => true

/-- JavaScript `a || b` where `a` may be `undefined` (`none`). -/
def jsOrOpt : Option Json → Json → Json
  | some v, b => if isTruthy v then v else b
  | none, b => b

/-- The action note `title || description || "No title provided"`
computed for one event entry. -/
def noteOf (event : Json) : Json :=
  jsOrOpt (getObjField event "title")
    (jsOrOpt (getObjField event "description") (Json.str "No title provided"))

/-- The action context `JSON.stringify(\x7b date, time, location \x7d)`
for one event entry: an object literal whose `undefined` members are
omitted by `JSON.stringify`. -/
def contextOf (event : Json) : String :=
  jsonStringify (Json.obj
    (([("date", getObjField event "date"),
       ("time", getObjField event "time"),
       ("location", getObjField event "location")]).filterMap
      (fun kv => kv.2.map (fun v => (kv.1, v)))))

/-- The guard of the duplicate check: an existing `email_actions` row
with the same `(user_id, email_id, action_type)`. -/
def matchesActionKey (userId : String) (emailId : Nat) (a : ActionRow) : Bool :=
  a.user_id == userId && a.email_id == emailId && a.action_type == "EVENT"

/-- The body of the per-event loop in `extractAndSaveEmailActions`
(src/index.js lines 221-269): destructure the event (a `null` entry
raises a TypeError), resolve the default user, skip when a row with the
same `(user, email, action-type)` already exists, otherwise insert the
new action row. -/
def saveEventAction (db : Db) (emailId : Nat) (duckId : String) (event : Json) :
    Db × Option String :=
  if event == Json.null then
    (db, some "TypeError: cannot destructure a null event")
  else
    match getDefaultUserId db duckId with
    | Except.error e => (db, some e)
    | Except.ok userId =>
      if db.emailActions.any (matchesActionKey userId emailId) then
        (db, none)
      else
        ({ db with
            emailActions := db.emailActions ++ [{
              email_id := emailId
              duck_id := duckId
              user_id := userId
              action_type := "EVENT"
              context := contextOf event
              note := noteOf event
              status := "ACTIVE" }] }, none)

/-- Sequential `for (const event of parsedResults.events)` loop; an
error aborts the remaining iterations but keeps the rows already
committed. -/
def saveEventActionsLoop (emailId : Nat) (duckId : String) : Db → List Json → Db × Option String
  | db, [] => (db, none)
  | db, e :: es =>
    match saveEventAction db emailId duckId e with
    | (db', none) => saveEventActionsLoop emailId duckId db' es
    | (db', some err) => (db', some err)

/-- `extractAndSaveEmailActions` (src/index.js lines 213-277): parse the
AI text (a parse failure propagates), and when `events` is a non-empty
array run the per-event loop; property access on a parsed `null` raises
a TypeError, and any non-array or absent `events` is a no-op.  The
surrounding try/catch logs and rethrows, so errors propagate
unchanged. -/
def extractAndSaveEmailActions (db : Db) (emailId : Nat) (duckId : String) (aiResults : String) :
    Db × Option String :=
  match parseJson aiResults with
  | none => (db, some "SyntaxError: Unexpected token in JSON")
  | some parsedResults =>
    if parsedResults == Json.null then
      (db, some "TypeError: cannot read properties of null")
    else
      match getObjField parsedResults "events" with
      | some (Json.arr events) =>
        if events.length > 0 then saveEventActionsLoop emailId duckId db events
        else (db, none)
      | _ => (db, none)

/-! ### Batch Dispatcher (`handler`, src/index.js lines 449-509) and
its collaborators -/

/-- The `s3` member of a direct object-store trigger record
(`record.s3.bucket.name` / `record.s3.object.key`). -/
structure S3Entity where
  bucketName : String
  objectKey : String
deriving Repr, DecidableEq

/-- One record of the inbound trigger batch.  `s3` is `none` when the
record carries no `s3` member — e.g. when it instead wraps a nested
notification whose JSON payload (`snsMessage`) names the bucket and
key. -/
structure TriggerRecord where
  s3 : Option S3Entity
  snsMessage : Option String
deriving Repr, DecidableEq

/-- `key.replace(/\+/g, ' ')`. -/
def plusToSpace (cs : List Char) : List Char :=
  cs.map (fun c => if c = '+' then ' ' else c)

/-- `decodeURIComponent`, modelled for ASCII percent-escapes (a
malformed escape fails, as the JavaScript function throws; multi-byte
UTF-8 escape sequences are beyond the scope of the claims and are also
modelled as failing). -/
def decodeURIComponentChars : List Char → Option (List Char)
  | [] => some []
  | '%' :: a :: b :: rest =>
    match hexVal a, hexVal b with
    | some ha, some hb =>
      if ha * 16 + hb < 128 then
        (decodeURIComponentChars rest).map (fun t => Char.ofNat (ha * 16 + hb) :: t)
      else none
    | _, _ => none
  | '%' :: _ => none
  | c :: rest => (decodeURIComponentChars rest).map (fun t => c :: t)

/-- The bucket/key extraction at src/index.js lines 457-458.  It reads
`record.s3` unconditionally and sits outside the per-record try block:
a record without an `s3` member raises a TypeError that aborts the whole
invocation. -/
def extractBucketKey (r : TriggerRecord) : Except String (String × String) :=
  match r.s3 with
  | none => Except.error "TypeError: cannot read properties of undefined (reading 'bucket')"
  | some e =>
    match decodeURIComponentChars (plusToSpace e.objectKey.data) with
    | none => Except.error "URIError: URI malformed"
    | some k => Except.ok (e.bucketName, String.mk k)

/-- The external collaborators of one invocation: connection setup,
the two connectivity probes (their outcome is modelled as fixed for the
invocation), the S3 fetch-and-parse, and the OpenAI completion call. -/
structure Env where
  dbConnect : Except String Unit
  internetUp : Bool
  openaiUp : Bool
  fetchEmail : String → String → Except String ParsedEmail
  aiResponse : String → Except String String

/-- `testInternetConnection` (src/index.js lines 396-405). -/
def testInternetConnection (env : Env) : Bool := env.internetUp

/-- `testOpenAIConnection` (src/index.js lines 348-374). -/
def testOpenAIConnection (env : Env) : Bool := env.openaiUp

/-- `processEmailWithAI` (src/index.js lines 140-175): forward the
combined prompt to the completion endpoint; a failure is wrapped in
an `OpenAI processing failed:` error. -/
def processEmailWithAI (env : Env) (combinedPrompt : String) : Except String String :=
  match env.aiResponse combinedPrompt with
  | Except.ok r => Except.ok r
  | Except.error e => Except.error ("OpenAI processing failed: " ++ e)

/-- The per-record pipeline inside the handler's inner try (src/index.js
lines 460-493): probes, fetch, tenant resolution, initial insert,
prompt resolution and combination, extraction, result update, action
materialization.  Returns the database after the record plus the error
that the inner catch would log, if any. -/
def processRecord (env : Env) (db : Db) (bucket key : String) : Db × Option String :=
  if ¬ testInternetConnection env then
    (db, some "Internet access not available from Lambda. Check VPC and NAT Gateway configuration.")
  else if ¬ testOpenAIConnection env then
    (db, some "OpenAI API connection test failed. Check your API key and network settings.")
  else
    match env.fetchEmail bucket key with
    | Except.error e => (db, some e)
    | Except.ok parsedEmail =>
      match getDuckId db parsedEmail.toAddr with
      | Except.error e => (db, some e)
      | Except.ok duckId =>
        let ins := saveEmailToDb db duckId parsedEmail key
        match getPromptsForDuckType ins.1 duckId with
        | Except.error e => (ins.1, some e)
        | Except.ok prompts =>
          let combinedPrompt := combinePrompts parsedEmail.content prompts
          match processEmailWithAI env combinedPrompt with
          | Except.error e => (ins.1, some e)
          | Except.ok aiResults =>
            match saveProcessedResults ins.1 ins.2 aiResults with
            | (db2, some e) => (db2, some e)
            | (db2, none) => extractAndSaveEmailActions db2 ins.2 duckId aiResults

/-- The `for (const record of event.Records)` loop: bucket/key
extraction happens outside the per-record try and aborts the batch on
failure; pipeline errors are caught per record (the middle component
collects each attempted record's logged outcome, `none` for success). -/
def runRecords (env : Env) : Db → List TriggerRecord → Db × List (Option String) × Option String
  | db, [] => (db, [], none)
  | db, r :: rs =>
    match extractBucketKey r with
    | Except.error e => (db, [], some e)
    | Except.ok bk =>
      let step := processRecord env db bk.1 bk.2
      let rest := runRecords env step.1 rs
      (rest.1, step.2 :: rest.2.1, rest.2.2)

/-- The Lambda invocation result. -/
structure HandlerResult where
  statusCode : Nat
  body : String
deriving Repr, DecidableEq

/-- `exports.handler` (src/index.js lines 449-509): connect (a setup
failure returns 500 before any record is touched), run the batch, and
return 200 when the loop completed — regardless of logged per-record
errors — or 500 when an error escaped the loop.  The returned triple
also exposes the final database and the per-record outcome log. -/
def handler (env : Env) (db : Db) (eventRecords : List TriggerRecord) :
    HandlerResult × Db × List (Option String) :=
  match env.dbConnect with
  | Except.error msg =>
    ({ statusCode := 500, body := jsonStringify (Json.obj [("error", Json.str msg)]) }, db, [])
  | Except.ok _ =>
    match runRecords env db eventRecords with
    | (db', outs, none) =>
      ({ statusCode := 200,
         body := jsonStringify (Json.obj [("message", Json.str "Successfully processed all emails")]) },
       db', outs)
    | (db', outs, some msg) =>
      ({ statusCode := 500, body := jsonStringify (Json.obj [("error", Json.str msg)]) }, db', outs)

/-! ### Uniqueness invariant of the `email_actions` table -/

/-- At most one action row per `(user, email, action type)` triple. -/
def actionUniq (db : Db) : Prop :=
  ∀ (u : String) (e : Nat) (t : String),
    (db.emailActions.filter
      (fun a => a.user_id == u && a.email_id == e && a.action_type == t)).length ≤ 1

/-! ### Concrete fixtures used by witnesses and counterexamples -/

/-- A duck identifier of the UUID shape `getPromptsForDuckType`
accepts. -/
def duckUuid : String := "123e4567-e89b-12d3-a456-426614174000"

/-- One active duck of type `GENERAL`. -/
def fixtureDuck : DuckRow :=
  { id := duckUuid, org_id := "org1", emailPrefixVal := "info", is_active := true, type := "GENERAL" }

/-- A store with one active duck, its organization and one member
user. -/
def fixtureDb : Db :=
  { ducks := [fixtureDuck]
    organizations := [{ id := "org1", slug := "acme" }]
    users := [{ id := "user1", organization_id := "org1", role := "MEMBER" }]
    prompt_templates := []
    duck_prompt_overrides := []
    duck_types := []
    duck_type_prompts := []
    processedEmails := []
    emailActions := []
    nextEmailId := 1 }

/-- A freshly inserted `processed_emails` row (status `RECEIVED`, NULL
payload). -/
def receivedRow : ProcessedEmailRow :=
  { id := 1, duck_id := duckUuid, message_id := "m1", subject := "s", sender := "alice@example.com",
    received_at := "2024-05-01", s3_key := "inbox/msg1", processing_status := "RECEIVED",
    extracted_data := none }

/-- `fixtureDb` after the initial insert of `receivedRow`. -/
def fixtureDbWithEmail : Db :=
  { fixtureDb with processedEmails := [receivedRow], nextEmailId := 2 }

/-- `fixtureDb` extended with one active override (and its template) and
one active type-tier prompt for type `GENERAL`. -/
def fixtureDbPrompts : Db :=
  { fixtureDb with
    prompt_templates := ["tpl1"]
    duck_prompt_overrides := [{ duck_id := duckUuid, template_id := "tpl1", is_active := true,
                                prompt_text := "Override instructions" }]
    duck_types := [{ id := "dt1", name := "GENERAL" }]
    duck_type_prompts := [{ duck_type_id := "dt1", prompt_text := "Type instructions",
                            is_active := true, version := 2 }] }

/-- AI text whose `events` array has two distinct entries. -/
def txtTwoEvents : String :=
  "\x7b\"events\":[\x7b\"title\":\"A\"\x7d,\x7b\"title\":\"B\"\x7d]\x7d"

def evTitleA : Json := Json.obj [("title", Json.str "A")]

def evTitleB : Json := Json.obj [("title", Json.str "B")]

/-- AI text with one event titled `Alpha` on 2024-05-01. -/
def txtAlpha : String :=
  "\x7b\"events\":[\x7b\"title\":\"Alpha\",\"date\":\"2024-05-01\"\x7d]\x7d"

/-- AI text with one event titled `Beta` on the same date. -/
def txtBeta : String :=
  "\x7b\"events\":[\x7b\"title\":\"Beta\",\"date\":\"2024-05-01\"\x7d]\x7d"

/-- The action row the materializer inserts for `txtAlpha` on
`fixtureDb`. -/
def rowAlpha : ActionRow :=
  { email_id := 1, duck_id := duckUuid, user_id := "user1", action_type := "EVENT",
    context := "\x7b\"date\":\"2024-05-01\"\x7d", note := Json.str "Alpha", status := "ACTIVE" }

/-- A normalized email addressed to the fixture duck. -/
def fixtureEmail : ParsedEmail :=
  { subject := "s", fromAddr := "alice@example.com", toAddr := "info.acme@ducks.example.com",
    date := "2024-05-01", message_id := "m1", content := "mail body" }

/-- An environment whose setup and probes succeed. -/
def fixtureEnvOk : Env :=
  { dbConnect := Except.ok (), internetUp := true, openaiUp := true,
    fetchEmail := fun _ _ => Except.ok fixtureEmail,
    aiResponse := fun _ => Except.ok txtAlpha }

/-- `fixtureEnvOk` with the internet probe failing. -/
def fixtureEnvNoNet : Env := { fixtureEnvOk with internetUp := false }

/-- `fixtureEnvOk` with the store connection failing. -/
def fixtureEnvConnFail : Env := { fixtureEnvOk with dbConnect := Except.error "connection refused" }

/-- A trigger record of the direct object-store shape. -/
def directRecord : TriggerRecord :=
  { s3 := some { bucketName := "mail-bucket", objectKey := "inbox/msg+1%2Etxt" }, snsMessage := none }

/-- A trigger record wrapping only a nested notification whose JSON
payload names the bucket and key. -/
def nestedRecord : TriggerRecord :=
  { s3 := none,
    snsMessage := some "\x7b\"Records\":[\x7b\"s3\":\x7b\"bucket\":\x7b\"name\":\"mail-bucket\"\x7d,\"object\":\x7b\"key\":\"inbox/msg1\"\x7d\x7d\x7d]\x7d" }

/-! ## Theorems -/

/-! ### C4 — parse failure aborts the persistence update -/

/-- C4: for every AI response string that does not parse as JSON, the
persistence update is aborted and an error propagates for that record:
the database is returned entirely unchanged — so every ProcessedEmail
row keeps its status (in particular `RECEIVED`) and its NULL
extracted-data payload, and no transition to `PROCESSED` occurs. -/
theorem saveProcessedResults_parse_failure_aborts (db : Db) (emailId : Nat) (aiResults : String)
    (hparse : parseJson aiResults = none) :
    saveProcessedResults db emailId aiResults
      = (db, some "Failed to save AI results: Unexpected token in JSON") := by
  simp [saveProcessedResults, hparse]

/-- Witness for C4 at the AI text `This is not JSON` on a store holding
one `RECEIVED` row. -/
theorem saveProcessedResults_parse_failure_aborts_witness :
    parseJson "This is not JSON" = none
    ∧ saveProcessedResults fixtureDbWithEmail 1 "This is not JSON"
        = (fixtureDbWithEmail, some "Failed to save AI results: Unexpected token in JSON") :=
  ⟨by decide,
   saveProcessedResults_parse_failure_aborts fixtureDbWithEmail 1 "This is not JSON" (by decide)⟩

/-! ### C5 — the persisted payload is parseable but not
schema-checked -/

/-- C5 counterexample: the pipeline's update persists any parseable AI
text; for `{"summary":"ok"}` the persisted payload is set (the row
becomes `PROCESSED`) yet it has no `events` field at all, so it does not
deserialize to an object with `events` as a sequence. -/
theorem saveProcessedResults_persists_schemaless_payload :
    (saveProcessedResults fixtureDbWithEmail 1 "\x7b\"summary\":\"ok\"\x7d").1.processedEmails
      = [{ receivedRow with
           processing_status := "PROCESSED"
           extracted_data := some (Json.obj [("summary", Json.str "ok")]) }]
    ∧ getObjField (Json.obj [("summary", Json.str "ok")]) "events" = none := by
  exact ⟨by decide, by decide⟩

/-- C5 (amended): a payload set by the pipeline's update is always the
parsed JSON value of the AI text — hence valid JSON — and the row
transitions to `PROCESSED`; conformance to the extraction schema (an
`events` sequence) is *not* guaranteed, only parseability is checked
(see the counterexample). -/
theorem saveProcessedResults_sets_parsed_payload (db : Db) (emailId : Nat) (aiResults : String)
    (parsed : Json) (hparse : parseJson aiResults = some parsed) :
    (saveProcessedResults db emailId aiResults).2 = none
    ∧ ∀ r ∈ (saveProcessedResults db emailId aiResults).1.processedEmails,
        r.id = emailId → r.extracted_data = some parsed ∧ r.processing_status = "PROCESSED" := by
  constructor
  · simp [saveProcessedResults, hparse]
  · intro r hr hid
    simp only [saveProcessedResults, hparse, List.mem_map] at hr
    obtain ⟨orig, _, heq⟩ := hr
    by_cases h : (orig.id == emailId) = true
    · rw [if_pos h] at heq
      rw [← heq]
      exact ⟨rfl, rfl⟩
    · rw [if_neg h] at heq
      rw [← heq] at hid
      exact absurd (by simp [hid]) h

/-- Witness for C5's amended theorem at the AI text `{"a":1}`. -/
theorem saveProcessedResults_sets_parsed_payload_witness :
    parseJson "\x7b\"a\":1\x7d" = some (Json.obj [("a", Json.num "1")])
    ∧ ((saveProcessedResults fixtureDbWithEmail 1 "\x7b\"a\":1\x7d").2 = none
       ∧ ∀ r ∈ (saveProcessedResults fixtureDbWithEmail 1 "\x7b\"a\":1\x7d").1.processedEmails,
           r.id = 1 → r.extracted_data = some (Json.obj [("a", Json.num "1")])
             ∧ r.processing_status = "PROCESSED") :=
  ⟨by decide,
   saveProcessedResults_sets_parsed_payload fixtureDbWithEmail 1 "\x7b\"a\":1\x7d"
     (Json.obj [("a", Json.num "1")]) (by decide)⟩

/-! ### C2 — the three-tier prompt fallback -/

/-- C2: the Prompt Resolution Engine follows the three-tier fallback
exactly.  With at least one active tenant-specific override the result
is exactly the override set — independent of every other table, in
particular of all type-tier content; with no active override but at
least one active type-tier prompt the result is the set of all active
type-tier rows ordered by version descending; with neither it is the
single built-in default instruction. -/
theorem getPromptsForDuckType_three_tier_fallback (db : Db) (duckId : String) (duck : DuckRow)
    (huuid : isValidUUID duckId = true)
    (hduck : db.ducks.find? (fun d => d.id == duckId) = some duck) :
    (activeOverridesQuery db duckId ≠ [] →
        getPromptsForDuckType db duckId
          = Except.ok ((activeOverridesQuery db duckId).map (fun po => ⟨po.prompt_text⟩))
        ∧ ∀ db2 : Db, db2.duck_prompt_overrides = db.duck_prompt_overrides →
            db2.prompt_templates = db.prompt_templates →
            getPromptsForDuckType db2 duckId
              = Except.ok ((activeOverridesQuery db duckId).map (fun po => ⟨po.prompt_text⟩)))
    ∧ (activeOverridesQuery db duckId = [] → activeTypePromptsQuery db duck.type ≠ [] →
        getPromptsForDuckType db duckId
          = Except.ok ((activeTypePromptsQuery db duck.type).map (fun tp => ⟨tp.prompt_text⟩)))
    ∧ (activeOverridesQuery db duckId = [] → activeTypePromptsQuery db duck.type = [] →
        getPromptsForDuckType db duckId = Except.ok [⟨defaultPromptText⟩]) := by
  have hq : ∀ db2 : Db, db2.duck_prompt_overrides = db.duck_prompt_overrides →
      db2.prompt_templates = db.prompt_templates →
      activeOverridesQuery db2 duckId = activeOverridesQuery db duckId := by
    intro db2 h1 h2
    unfold activeOverridesQuery
    rw [h1, h2]
  refine ⟨?_, ?_, ?_⟩
  · intro hne
    have hlen : (activeOverridesQuery db duckId).length > 0 := List.length_pos.mpr hne
    constructor
    · simp [getPromptsForDuckType, huuid, hlen]
    · intro db2 h1 h2
      have hrw := hq db2 h1 h2
      simp [getPromptsForDuckType, huuid, hrw, hlen]
  · intro hov hty
    have hlen : ¬ (activeOverridesQuery db duckId).length > 0 := by simp [hov]
    have htylen : ¬ (activeTypePromptsQuery db duck.type).length == 0 := by
      simp [hty]
    simp [getPromptsForDuckType, huuid, hlen, hduck, htylen]
  · intro hov hty
    have hlen : ¬ (activeOverridesQuery db duckId).length > 0 := by simp [hov]
    simp [getPromptsForDuckType, huuid, hlen, hduck, hty]

/-- Witness for C2 on a store with one active override and one active
type-tier prompt for the fixture duck. -/
theorem getPromptsForDuckType_three_tier_fallback_witness :
    isValidUUID duckUuid = true
    ∧ fixtureDbPrompts.ducks.find? (fun d => d.id == duckUuid) = some fixtureDuck
    ∧ ((activeOverridesQuery fixtureDbPrompts duckUuid ≠ [] →
          getPromptsForDuckType fixtureDbPrompts duckUuid
            = Except.ok ((activeOverridesQuery fixtureDbPrompts duckUuid).map
                (fun po => ⟨po.prompt_text⟩))
          ∧ ∀ db2 : Db, db2.duck_prompt_overrides = fixtureDbPrompts.duck_prompt_overrides →
              db2.prompt_templates = fixtureDbPrompts.prompt_templates →
              getPromptsForDuckType db2 duckUuid
                = Except.ok ((activeOverridesQuery fixtureDbPrompts duckUuid).map
                    (fun po => ⟨po.prompt_text⟩)))
       ∧ (activeOverridesQuery fixtureDbPrompts duckUuid = [] →
            activeTypePromptsQuery fixtureDbPrompts fixtureDuck.type ≠ [] →
            getPromptsForDuckType fixtureDbPrompts duckUuid
              = Except.ok ((activeTypePromptsQuery fixtureDbPrompts fixtureDuck.type).map
                  (fun tp => ⟨tp.prompt_text⟩)))
       ∧ (activeOverridesQuery fixtureDbPrompts duckUuid = [] →
            activeTypePromptsQuery fixtureDbPrompts fixtureDuck.type = [] →
            getPromptsForDuckType fixtureDbPrompts duckUuid
              = Except.ok [⟨defaultPromptText⟩])) :=
  ⟨by decide, by decide,
   getPromptsForDuckType_three_tier_fallback fixtureDbPrompts duckUuid fixtureDuck
     (by decide) (by decide)⟩

/-! ### C6 — the Prompt Combiner contract -/

theorem isPrefixList_self_append (p y : List Char) : isPrefixList p (p ++ y) = true := by
  induction p with
  | nil => rfl
  | cons a as ih => simp [isPrefixList, ih]

theorem isPrefixList_append_mono (p : List Char) :
    ∀ x y : List Char, isPrefixList p x = true → isPrefixList p (x ++ y) = true := by
  induction p with
  | nil => intro x y _; rfl
  | cons a as ih =>
    intro x y h
    cases x with
    | nil => simp [isPrefixList] at h
    | cons b bs =>
      simp only [isPrefixList, Bool.and_eq_true] at h ⊢
      exact ⟨h.1, ih bs y h.2⟩

theorem containsSub_of_isPrefixList (p l : List Char) (h : isPrefixList p l = true) :
    containsSub p l = true := by
  cases l with
  | nil => simpa [containsSub] using h
  | cons c t => simp [containsSub, h]

theorem containsSub_append_right (p x y : List Char) (h : containsSub p y = true) :
    containsSub p (x ++ y) = true := by
  induction x with
  | nil => simpa using h
  | cons c t ih =>
    show containsSub p (c :: (t ++ y)) = true
    simp only [containsSub, Bool.or_eq_true]
    exact Or.inr ih

theorem containsSub_append_left (p x y : List Char) (h : containsSub p x = true) :
    containsSub p (x ++ y) = true := by
  induction x with
  | nil =>
    have hp : p = [] := by
      cases p with
      | nil => rfl
      | cons a as => simp [containsSub, isPrefixList] at h
    subst hp
    cases y with
    | nil => rfl
    | cons c t => simp [containsSub, isPrefixList]
  | cons c t ih =>
    simp only [containsSub, Bool.or_eq_true] at h
    show containsSub p (c :: (t ++ y)) = true
    simp only [containsSub, Bool.or_eq_true]
    rcases h with h | h
    · exact Or.inl (isPrefixList_append_mono p (c :: t) y h)
    · exact Or.inr (ih h)

/-- A prefix of `x ++ '\n' :: y` that contains no newline is already a
prefix of `x`. -/
theorem isPrefixList_no_newline (p : List Char) :
    ∀ x y : List Char, '\n' ∉ p → isPrefixList p (x ++ '\n' :: y) = true →
    isPrefixList p x = true := by
  induction p with
  | nil => intro x y _ _; rfl
  | cons a as ih =>
    intro x y hnl h
    have hane : a ≠ '\n' := fun he => hnl (by rw [he]; exact List.mem_cons_self _ _)
    have hnas : '\n' ∉ as := fun hm => hnl (List.mem_cons_of_mem _ hm)
    cases x with
    | nil =>
      simp only [List.nil_append, isPrefixList, Bool.and_eq_true, beq_iff_eq] at h
      exact absurd h.1 hane
    | cons b bs =>
      simp only [List.cons_append, isPrefixList, Bool.and_eq_true] at h ⊢
      exact ⟨h.1, ih bs y hnas h.2⟩

/-- An occurrence of a nonempty newline-free string in
`a ++ '\n' :: '\n' :: b` lies entirely inside `a` or inside `b`. -/
theorem containsSub_split_newline (p : List Char) (hne : p ≠ []) (hnl : '\n' ∉ p) :
    ∀ a b : List Char, containsSub p (a ++ '\n' :: '\n' :: b) = true →
    containsSub p a = true ∨ containsSub p b = true := by
  have hpref : ∀ w : List Char, isPrefixList p ('\n' :: w) = false := by
    intro w
    cases p with
    | nil => exact absurd rfl hne
    | cons a as =>
      have hane : a ≠ '\n' := fun he => hnl (by rw [he]; exact List.mem_cons_self _ _)
      simp [isPrefixList, hane]
  intro a
  induction a with
  | nil =>
    intro b h
    simp only [List.nil_append, containsSub, hpref, Bool.false_or] at h
    exact Or.inr h
  | cons c t ih =>
    intro b h
    simp only [List.cons_append, containsSub, Bool.or_eq_true] at h
    rcases h with h | h
    · have : isPrefixList p ((c :: t) ++ '\n' :: ('\n' :: b)) = true := by
        simpa using h
      have hpc : isPrefixList p (c :: t) = true :=
        isPrefixList_no_newline p (c :: t) ('\n' :: b) hnl this
      exact Or.inl (containsSub_of_isPrefixList p (c :: t) hpc)
    · rcases ih b h with h1 | h1
      · refine Or.inl ?_
        simp only [containsSub, Bool.or_eq_true]
        exact Or.inr h1
      · exact Or.inr h1

/-- Occurrence in the blank-line join of a list of texts is equivalent
to occurrence in one of the texts, for nonempty newline-free
patterns. -/
theorem containsSub_joinSep (p : List Char) (hne : p ≠ []) (hnl : '\n' ∉ p) :
    ∀ texts : List (List Char),
    (containsSub p (joinSep texts) = true ↔ ∃ t ∈ texts, containsSub p t = true)
  | [] => by
    constructor
    · intro h
      cases p with
      | nil => exact absurd rfl hne
      | cons a as => simp [joinSep, containsSub, isPrefixList] at h
    · rintro ⟨t, ht, _⟩
      simp at ht
  | [t] => by
    constructor
    · intro h
      exact ⟨t, by simp, by simpa [joinSep] using h⟩
    · rintro ⟨u, hu, hcu⟩
      have : u = t := by simpa using hu
      subst this
      simpa [joinSep] using hcu
  | t :: t2 :: ts => by
    constructor
    · intro h
      have h' : containsSub p (t ++ '\n' :: '\n' :: joinSep (t2 :: ts)) = true := by
        simpa [joinSep] using h
      rcases containsSub_split_newline p hne hnl t (joinSep (t2 :: ts)) h' with h1 | h1
      · exact ⟨t, by simp, h1⟩
      · rcases (containsSub_joinSep p hne hnl (t2 :: ts)).mp h1 with ⟨u, hu, hcu⟩
        exact ⟨u, List.mem_cons_of_mem t hu, hcu⟩
    · rintro ⟨u, hu, hcu⟩
      show containsSub p (t ++ '\n' :: '\n' :: joinSep (t2 :: ts)) = true
      rcases List.mem_cons.mp hu with h1 | h1
      · subst h1
        exact containsSub_append_left p u _ hcu
      · have : containsSub p (joinSep (t2 :: ts)) = true :=
          (containsSub_joinSep p hne hnl (t2 :: ts)).mpr ⟨u, h1, hcu⟩
        exact containsSub_append_right p t _ (containsSub_append_right p ['\n', '\n'] _ this)

/-- C6: for every email content string and every list of prompt
instruction texts, the Prompt Combiner output contains the email content
verbatim, and it ends with the fixed default JSON schema block if and
only if no input instruction text contains the literal substring
`JSON format`. -/
theorem combinePrompts_content_and_schema (emailContent : String) (prompts : List PromptRow) :
    containsSubStr (combinePrompts emailContent prompts) emailContent = true
    ∧ (strEndsWith (combinePrompts emailContent prompts) jsonSchemaBlock = true
        ↔ ∀ p ∈ prompts, containsSubStr p.promptText jsonFormatMarker = false) := by
  have hmarker_ne : (jsonFormatMarker.data : List Char) ≠ [] := by decide
  have hmarker_nl : '\n' ∉ jsonFormatMarker.data := by decide
  have hschemaRev : ∀ w : List Char,
      isPrefixList jsonSchemaBlock.data.reverse ('\n' :: w) = false := by
    intro w
    have h1 : jsonSchemaBlock.data.reverse = rbrace :: jsonSchemaBlock.data.reverse.tail := by
      decide
    rw [h1]
    simp [isPrefixList, show (rbrace == '\n') = false from by decide]
  have hcontains_base : ∀ rest : List Char,
      containsSub emailContent.data
        (joinSep (prompts.map (fun p => p.promptText.data))
          ++ (analyzeHeader.data ++ (emailContent.data ++ rest))) = true := by
    intro rest
    apply containsSub_append_right
    apply containsSub_append_right
    exact containsSub_of_isPrefixList _ _ (isPrefixList_self_append _ _)
  constructor
  · show containsSub emailContent.data
      (combinePromptsChars emailContent.data (prompts.map (fun p => p.promptText.data))) = true
    by_cases hc : containsSub jsonFormatMarker.data
        (joinSep (prompts.map (fun p => p.promptText.data))) = true
    · have hbase : combinePromptsChars emailContent.data (prompts.map (fun p => p.promptText.data))
          = joinSep (prompts.map (fun p => p.promptText.data))
            ++ (analyzeHeader.data ++ (emailContent.data ++ ['\n', '\n'])) := by
        simp [combinePromptsChars, hc]
      rw [hbase]
      exact hcontains_base _
    · have hcf : containsSub jsonFormatMarker.data
          (joinSep (prompts.map (fun p => p.promptText.data))) = false :=
        Bool.not_eq_true _ ▸ Bool.eq_false_iff.mpr hc
      have hbase : combinePromptsChars emailContent.data (prompts.map (fun p => p.promptText.data))
          = (joinSep (prompts.map (fun p => p.promptText.data))
              ++ (analyzeHeader.data ++ (emailContent.data ++ ['\n', '\n'])))
            ++ jsonSchemaBlock.data := by
        simp [combinePromptsChars, hcf]
      rw [hbase]
      exact containsSub_append_left _ _ _ (hcontains_base _)
  · show endsWithChars
        (combinePromptsChars emailContent.data (prompts.map (fun p => p.promptText.data)))
        jsonSchemaBlock.data = true
      ↔ ∀ p ∈ prompts, containsSubStr p.promptText jsonFormatMarker = false
    by_cases hc : containsSub jsonFormatMarker.data
        (joinSep (prompts.map (fun p => p.promptText.data))) = true
    · -- some instruction mentions `JSON format`: no schema block is
      -- appended and the output ends in a blank line, not in the block
      have hbase : combinePromptsChars emailContent.data (prompts.map (fun p => p.promptText.data))
          = joinSep (prompts.map (fun p => p.promptText.data))
            ++ (analyzeHeader.data ++ (emailContent.data ++ ['\n', '\n'])) := by
        simp [combinePromptsChars, hc]
      have hrev : (joinSep (prompts.map (fun p => p.promptText.data))
            ++ (analyzeHeader.data ++ (emailContent.data ++ ['\n', '\n']))).reverse
          = '\n' :: '\n' :: (emailContent.data.reverse
              ++ (analyzeHeader.data.reverse
                  ++ (joinSep (prompts.map (fun p => p.promptText.data))).reverse)) := by
        simp [List.reverse_append, List.append_assoc]
      have hends : endsWithChars
          (combinePromptsChars emailContent.data (prompts.map (fun p => p.promptText.data)))
          jsonSchemaBlock.data = false := by
        rw [hbase]
        unfold endsWithChars
        rw [hrev]
        exact hschemaRev _
      rw [hends]
      simp only [Bool.false_eq_true, false_iff]
      intro hall
      rcases (containsSub_joinSep jsonFormatMarker.data hmarker_ne hmarker_nl
          (prompts.map (fun p => p.promptText.data))).mp hc with ⟨t, ht, hct⟩
      rcases List.mem_map.mp ht with ⟨p, hp, hpt⟩
      have hthis : containsSub jsonFormatMarker.data p.promptText.data = false := hall p hp
      rw [hpt] at hthis
      rw [hthis] at hct
      exact Bool.false_ne_true hct
    · -- no instruction mentions `JSON format`: the schema block is
      -- appended verbatim at the end
      have hcf : containsSub jsonFormatMarker.data
          (joinSep (prompts.map (fun p => p.promptText.data))) = false :=
        Bool.not_eq_true _ ▸ Bool.eq_false_iff.mpr hc
      have hbase : combinePromptsChars emailContent.data (prompts.map (fun p => p.promptText.data))
          = (joinSep (prompts.map (fun p => p.promptText.data))
              ++ (analyzeHeader.data ++ (emailContent.data ++ ['\n', '\n'])))
            ++ jsonSchemaBlock.data := by
        simp [combinePromptsChars, hcf]
      have hends : endsWithChars
          (combinePromptsChars emailContent.data (prompts.map (fun p => p.promptText.data)))
          jsonSchemaBlock.data = true := by
        rw [hbase]
        unfold endsWithChars
        rw [List.reverse_append]
        exact isPrefixList_self_append _ _
      rw [hends]
      simp only [true_iff]
      intro p hp
      rw [show containsSubStr p.promptText jsonFormatMarker
            = containsSub jsonFormatMarker.data p.promptText.data from rfl]
      by_contra hpc
      have hpc' : containsSub jsonFormatMarker.data p.promptText.data = true := by
        cases hx : containsSub jsonFormatMarker.data p.promptText.data
        · exact absurd hx hpc
        · rfl
      have : containsSub jsonFormatMarker.data
          (joinSep (prompts.map (fun p => p.promptText.data))) = true :=
        (containsSub_joinSep jsonFormatMarker.data hmarker_ne hmarker_nl
          (prompts.map (fun p => p.promptText.data))).mpr
          ⟨p.promptText.data, List.mem_map.mpr ⟨p, hp, rfl⟩, hpc'⟩
      exact hc this

/-! ### C1 — idempotence of the Action Materializer, and how many rows
it really leaves -/

theorem getDefaultUserId_ignores_actions (db : Db) (duckId : String) (acts : List ActionRow) :
    getDefaultUserId { db with emailActions := acts } duckId = getDefaultUserId db duckId := rfl

theorem filter_nil_of_any_false {α : Type} (p : α → Bool) :
    ∀ l : List α, l.any p = false → l.filter p = []
  | [], _ => rfl
  | x :: xs, h => by
    have hx : p x = false := by
      cases hpx : p x
      · rfl
      · rw [List.any_cons, hpx, Bool.true_or] at h
        exact absurd h (by simp)
    have hxs : xs.any p = false := by
      rw [List.any_cons, hx, Bool.false_or] at h
      exact h
    rw [List.filter_cons, hx]
    simp only [Bool.false_eq_true, if_false]
    exact filter_nil_of_any_false p xs hxs

/-- A non-null event is skipped without any write as soon as a row with
the same `(user, email, action-type)` key exists. -/
theorem saveEventAction_skip (db : Db) (emailId : Nat) (duckId : String) (event : Json)
    (u : String)
    (hev : (event == Json.null) = false)
    (hu : getDefaultUserId db duckId = Except.ok u)
    (hex : db.emailActions.any (matchesActionKey u emailId) = true) :
    saveEventAction db emailId duckId event = (db, none) := by
  simp [saveEventAction, hev, hu, hex]

/-- Once a row with the `(user, email, action-type)` key exists, the
whole event loop is a no-op. -/
theorem saveEventActionsLoop_skip (emailId : Nat) (duckId : String) (u : String) :
    ∀ (events : List Json) (db : Db),
    (∀ e ∈ events, (e == Json.null) = false) →
    getDefaultUserId db duckId = Except.ok u →
    db.emailActions.any (matchesActionKey u emailId) = true →
    saveEventActionsLoop emailId duckId db events = (db, none)
  | [], _, _, _, _ => rfl
  | e :: es, db, hnn, hu, hex => by
    have h1 := saveEventAction_skip db emailId duckId e u (hnn e (List.mem_cons_self _ _)) hu hex
    simp only [saveEventActionsLoop, h1]
    exact saveEventActionsLoop_skip emailId duckId u es db
      (fun x hx => hnn x (List.mem_cons_of_mem _ hx)) hu hex

/-- C1 (amended): the Action Materializer is idempotent, but it leaves
exactly one action row in total — not one row per distinct event.  The
duplicate check keys on `(user, email, action-type)` alone, so on a
clean store the first event's row is inserted and every further event
of the same invocation, as well as the entire second invocation, is
skipped: the `(user, email, EVENT)` row count after one or two
invocations is 1, whatever the number `n` of distinct events. -/
theorem extractAndSaveEmailActions_idempotent_single_row
    (db : Db) (emailId : Nat) (duckId : String) (txt : String)
    (parsed ev : Json) (evs : List Json) (u : String)
    (hp : parseJson txt = some parsed)
    (hnn : (parsed == Json.null) = false)
    (hobj : getObjField parsed "events" = some (Json.arr (ev :: evs)))
    (hevnn : ∀ e ∈ ev :: evs, (e == Json.null) = false)
    (hu : getDefaultUserId db duckId = Except.ok u)
    (hclean : db.emailActions.any (matchesActionKey u emailId) = false) :
    extractAndSaveEmailActions db emailId duckId txt
      = ({ db with emailActions := db.emailActions ++ [{
            email_id := emailId
            duck_id := duckId
            user_id := u
            action_type := "EVENT"
            context := contextOf ev
            note := noteOf ev
            status := "ACTIVE" }] }, none)
    ∧ extractAndSaveEmailActions
        (extractAndSaveEmailActions db emailId duckId txt).1 emailId duckId txt
      = ((extractAndSaveEmailActions db emailId duckId txt).1, none)
    ∧ ((extractAndSaveEmailActions db emailId duckId txt).1.emailActions.filter
        (matchesActionKey u emailId)).length = 1 := by
  have hrowkey : matchesActionKey u emailId {
      email_id := emailId, duck_id := duckId, user_id := u, action_type := "EVENT",
      context := contextOf ev, note := noteOf ev, status := "ACTIVE" } = true := by
    simp [matchesActionKey]
  have hsea : saveEventAction db emailId duckId ev
      = ({ db with emailActions := db.emailActions ++ [{
            email_id := emailId, duck_id := duckId, user_id := u, action_type := "EVENT",
            context := contextOf ev, note := noteOf ev, status := "ACTIVE" }] }, none) := by
    simp [saveEventAction, hevnn ev (List.mem_cons_self _ _), hu, hclean]
  have hu1 : getDefaultUserId { db with emailActions := db.emailActions ++ [{
      email_id := emailId, duck_id := duckId, user_id := u, action_type := "EVENT",
      context := contextOf ev, note := noteOf ev, status := "ACTIVE" }] } duckId
      = Except.ok u :=
    (getDefaultUserId_ignores_actions db duckId _).trans hu
  have hex1 : ({ db with emailActions := db.emailActions ++ [{
      email_id := emailId, duck_id := duckId, user_id := u, action_type := "EVENT",
      context := contextOf ev, note := noteOf ev, status := "ACTIVE" }] } : Db).emailActions.any
        (matchesActionKey u emailId) = true := by
    simp [List.any_append, hrowkey]
  have hloop : saveEventActionsLoop emailId duckId db (ev :: evs)
      = ({ db with emailActions := db.emailActions ++ [{
            email_id := emailId, duck_id := duckId, user_id := u, action_type := "EVENT",
            context := contextOf ev, note := noteOf ev, status := "ACTIVE" }] }, none) := by
    simp only [saveEventActionsLoop, hsea]
    exact saveEventActionsLoop_skip emailId duckId u evs _
      (fun x hx => hevnn x (List.mem_cons_of_mem _ hx)) hu1 hex1
  have hstep : extractAndSaveEmailActions db emailId duckId txt
      = ({ db with emailActions := db.emailActions ++ [{
            email_id := emailId, duck_id := duckId, user_id := u, action_type := "EVENT",
            context := contextOf ev, note := noteOf ev, status := "ACTIVE" }] }, none) := by
    unfold extractAndSaveEmailActions
    rw [hp]
    simp only [hnn, Bool.false_eq_true, if_false, hobj, List.length_cons]
    simp only [Nat.succ_pos, if_true, Nat.lt_irrefl]
    simpa using hloop
  refine ⟨hstep, ?_, ?_⟩
  · rw [hstep]
    show extractAndSaveEmailActions _ emailId duckId txt = _
    unfold extractAndSaveEmailActions
    rw [hp]
    simp only [hnn, Bool.false_eq_true, if_false, hobj, List.length_cons]
    simp only [Nat.succ_pos, if_true, Nat.lt_irrefl]
    simpa using saveEventActionsLoop_skip emailId duckId u (ev :: evs) _ hevnn hu1 hex1
  · rw [hstep]
    have hnilf : db.emailActions.filter (matchesActionKey u emailId) = [] :=
      filter_nil_of_any_false _ _ hclean
    simp [List.filter_append, hnilf, hrowkey]

/-- Witness for C1's amended theorem: two distinct events on a clean
fixture store; the second invocation is a no-op and the key row count
is 1. -/
theorem extractAndSaveEmailActions_idempotent_single_row_witness :
    extractAndSaveEmailActions
        (extractAndSaveEmailActions fixtureDb 7 duckUuid txtTwoEvents).1 7 duckUuid txtTwoEvents
      = ((extractAndSaveEmailActions fixtureDb 7 duckUuid txtTwoEvents).1, none)
    ∧ ((extractAndSaveEmailActions fixtureDb 7 duckUuid txtTwoEvents).1.emailActions.filter
        (matchesActionKey "user1" 7)).length = 1 :=
  let h := extractAndSaveEmailActions_idempotent_single_row fixtureDb 7 duckUuid txtTwoEvents
    (Json.obj [("events", Json.arr [evTitleA, evTitleB])]) evTitleA [evTitleB] "user1"
    (by decide) (by decide) (by decide) (by decide) rfl (by decide)
  ⟨h.2.1, h.2.2⟩

/-- C1 counterexample: the AI text parses to an object whose `events`
array has two distinct entries (`n = 2`), yet after invoking the
materializer twice with the same `(email, tenant, AI text)` the store
holds one action row, not two. -/
theorem extractAndSaveEmailActions_not_row_per_event :
    parseJson txtTwoEvents = some (Json.obj [("events", Json.arr [evTitleA, evTitleB])])
    ∧ evTitleA ≠ evTitleB
    ∧ (extractAndSaveEmailActions fixtureDb 7 duckUuid txtTwoEvents).1.emailActions.length = 1
    ∧ (extractAndSaveEmailActions
        (extractAndSaveEmailActions fixtureDb 7 duckUuid txtTwoEvents).1
        7 duckUuid txtTwoEvents).1.emailActions.length = 1 := by
  refine ⟨by decide, by decide, by decide, by decide⟩

/-! ### C7 — uniqueness of `(user, email, action type)` -/

/-- Appending a row whose key is not yet present preserves the
uniqueness invariant. -/
theorem actionUniq_insert (db : Db) (row : ActionRow)
    (hclean : db.emailActions.any (matchesActionKey row.user_id row.email_id) = false)
    (htype : row.action_type = "EVENT")
    (h : actionUniq db) :
    actionUniq { db with emailActions := db.emailActions ++ [row] } := by
  intro u e t
  show ((db.emailActions ++ [row]).filter
    (fun a => a.user_id == u && a.email_id == e && a.action_type == t)).length ≤ 1
  rw [List.filter_append]
  by_cases hrow : (row.user_id == u && row.email_id == e && row.action_type == t) = true
  · have hx := hrow
    simp only [Bool.and_eq_true, beq_iff_eq] at hx
    obtain ⟨⟨h1, h2⟩, h3⟩ := hx
    subst h1
    subst h2
    rw [htype] at h3
    subst h3
    have hnil : db.emailActions.filter
        (fun a => a.user_id == row.user_id && a.email_id == row.email_id
          && a.action_type == "EVENT") = [] := by
      have heq : row.action_type = "EVENT" := htype
      exact filter_nil_of_any_false (matchesActionKey row.user_id row.email_id) _ hclean
    rw [show ("EVENT" : String) = row.action_type from htype.symm] at hnil ⊢
    rw [hnil]
    simp [hrow]
  · have hrowf : (row.user_id == u && row.email_id == e && row.action_type == t) = false := by
      cases hx : (row.user_id == u && row.email_id == e && row.action_type == t)
      · rfl
      · exact absurd hx hrow
    have hone : ([row].filter
        (fun a => a.user_id == u && a.email_id == e && a.action_type == t)) = [] := by
      simp [List.filter, hrowf]
    rw [hone, List.append_nil]
    exact h u e t

/-- One iteration of the event loop preserves the uniqueness
invariant. -/
theorem saveEventAction_uniq (db : Db) (emailId : Nat) (duckId : String) (event : Json)
    (h : actionUniq db) : actionUniq (saveEventAction db emailId duckId event).1 := by
  unfold saveEventAction
  by_cases hev : (event == Json.null) = true
  · simpa [hev] using h
  · rw [if_neg hev]
    cases hu : getDefaultUserId db duckId with
    | error e => exact h
    | ok userId =>
      by_cases hany : db.emailActions.any (matchesActionKey userId emailId) = true
      · simpa [hany] using h
      · have hanyf : db.emailActions.any (matchesActionKey userId emailId) = false := by
          cases hx : db.emailActions.any (matchesActionKey userId emailId)
          · rfl
          · exact absurd hx hany
        simp only [hanyf, Bool.false_eq_true, if_false]
        exact actionUniq_insert db _ hanyf rfl h

/-- The whole event loop preserves the uniqueness invariant. -/
theorem saveEventActionsLoop_uniq (emailId : Nat) (duckId : String) :
    ∀ (events : List Json) (db : Db), actionUniq db →
    actionUniq (saveEventActionsLoop emailId duckId db events).1
  | [], _, h => h
  | e :: es, db, h => by
    unfold saveEventActionsLoop
    cases hsea : saveEventAction db emailId duckId e with
    | mk db' err =>
      have h' : actionUniq db' := by
        have hh := saveEventAction_uniq db emailId duckId e h
        rw [hsea] at hh
        exact hh
      cases err with
      | none => simpa using saveEventActionsLoop_uniq emailId duckId es db' h'
      | some msg => simpa using h'

/-- One materializer invocation preserves the uniqueness invariant. -/
theorem extractAndSaveEmailActions_uniq (db : Db) (emailId : Nat) (duckId : String)
    (txt : String) (h : actionUniq db) :
    actionUniq (extractAndSaveEmailActions db emailId duckId txt).1 := by
  unfold extractAndSaveEmailActions
  cases hp : parseJson txt with
  | none => exact h
  | some parsed =>
    by_cases hnn : (parsed == Json.null) = true
    · simpa [hnn] using h
    · have hnnf : (parsed == Json.null) = false := by
        cases hx : (parsed == Json.null)
        · rfl
        · exact absurd hx hnn
      simp only [hnnf, Bool.false_eq_true, if_false]
      cases hobj : getObjField parsed "events" with
      | none => exact h
      | some j =>
        cases j with
        | arr events =>
          by_cases hlen : events.length > 0
          · simpa [hlen] using saveEventActionsLoop_uniq emailId duckId events db h
          · simpa [hlen] using h
        | null => exact h
        | bool b => exact h
        | num l => exact h
        | str s => exact h
        | obj f => exact h

/-- C7: after any sequence of Action Materializer invocations on a
store satisfying the uniqueness invariant, the persisted action rows
still satisfy it: at most one action row per (user, email, action type)
triple. -/
theorem extractAndSaveEmailActions_preserves_uniqueness (db : Db) (h : actionUniq db)
    (calls : List (Nat × String × String)) :
    actionUniq (calls.foldl
      (fun d c => (extractAndSaveEmailActions d c.1 c.2.1 c.2.2).1) db) := by
  induction calls generalizing db with
  | nil => exact h
  | cons c cs ih => exact ih _ (extractAndSaveEmailActions_uniq db c.1 c.2.1 c.2.2 h)

/-- Witness for C7: one materializer invocation on the fixture store
(whose action table is empty, hence trivially unique). -/
theorem extractAndSaveEmailActions_preserves_uniqueness_witness :
    actionUniq fixtureDb
    ∧ actionUniq ((([(7, duckUuid, txtTwoEvents)] : List (Nat × String × String)).foldl
        (fun d c => (extractAndSaveEmailActions d c.1 c.2.1 c.2.2).1) fixtureDb)) :=
  ⟨fun u e t => by simp [fixtureDb],
   extractAndSaveEmailActions_preserves_uniqueness fixtureDb
     (fun u e t => by simp [fixtureDb]) [(7, duckUuid, txtTwoEvents)]⟩

/-! ### C9 — shape of the inserted action rows -/

/-- One event-loop iteration either leaves the store unchanged or
appends exactly the row built from the event: type `EVENT`, status
`ACTIVE`, note from `title`/`description`, context from
`{date, time, location}`. -/
theorem saveEventAction_cases (db : Db) (emailId : Nat) (duckId : String) (event : Json) :
    (saveEventAction db emailId duckId event).1 = db
    ∨ ∃ u, (saveEventAction db emailId duckId event).1
      = { db with emailActions := db.emailActions ++ [{
          email_id := emailId, duck_id := duckId, user_id := u, action_type := "EVENT",
          context := contextOf event, note := noteOf event, status := "ACTIVE" }] } := by
  unfold saveEventAction
  by_cases hev : (event == Json.null) = true
  · rw [if_pos hev]
    exact Or.inl rfl
  · rw [if_neg hev]
    cases getDefaultUserId db duckId with
    | error e => exact Or.inl rfl
    | ok userId =>
      by_cases hany : db.emailActions.any (matchesActionKey userId emailId) = true
      · refine Or.inl ?_
        simp [hany]
      · have hanyf : db.emailActions.any (matchesActionKey userId emailId) = false := by
          cases hx : db.emailActions.any (matchesActionKey userId emailId)
          · rfl
          · exact absurd hx hany
        refine Or.inr ⟨userId, ?_⟩
        simp [hanyf]

/-- Every row present after the event loop either pre-existed or was
inserted for one of the events with the fixed type/status and the
note/context computed from that event. -/
theorem saveEventActionsLoop_mem (emailId : Nat) (duckId : String) :
    ∀ (events : List Json) (db : Db) (r : ActionRow),
    r ∈ (saveEventActionsLoop emailId duckId db events).1.emailActions →
    r ∈ db.emailActions
    ∨ ∃ ev ∈ events, r.action_type = "EVENT" ∧ r.status = "ACTIVE" ∧ r.email_id = emailId
        ∧ r.duck_id = duckId ∧ r.note = noteOf ev ∧ r.context = contextOf ev
  | [], _, _, hr => Or.inl hr
  | e :: es, db, r, hr => by
    have hone : ∀ db' : Db, (saveEventAction db emailId duckId e).1 = db' →
        r ∈ db'.emailActions →
        r ∈ db.emailActions
        ∨ (r.action_type = "EVENT" ∧ r.status = "ACTIVE" ∧ r.email_id = emailId
            ∧ r.duck_id = duckId ∧ r.note = noteOf e ∧ r.context = contextOf e) := by
      intro db' hdb' hrdb'
      rcases saveEventAction_cases db emailId duckId e with hc | ⟨u, hc⟩
      · rw [hdb'] at hc
        rw [hc] at hrdb'
        exact Or.inl hrdb'
      · rw [hdb'] at hc
        rw [hc] at hrdb'
        have : r ∈ db.emailActions ∨ r ∈ [({
            email_id := emailId, duck_id := duckId, user_id := u, action_type := "EVENT",
            context := contextOf e, note := noteOf e, status := "ACTIVE" } : ActionRow)] :=
          List.mem_append.mp hrdb'
        rcases this with h2 | h2
        · exact Or.inl h2
        · have h3 := List.mem_singleton.mp h2
          subst h3
          exact Or.inr ⟨rfl, rfl, rfl, rfl, rfl, rfl⟩
    unfold saveEventActionsLoop at hr
    cases hsea : saveEventAction db emailId duckId e with
    | mk db' err =>
      rw [hsea] at hr
      cases err with
      | some msg =>
        have hr' : r ∈ db'.emailActions := hr
        rcases hone db' (by rw [hsea]) hr' with h1 | h1
        · exact Or.inl h1
        · exact Or.inr ⟨e, List.mem_cons_self _ _, h1⟩
      | none =>
        have hr' : r ∈ (saveEventActionsLoop emailId duckId db' es).1.emailActions := hr
        rcases saveEventActionsLoop_mem emailId duckId es db' r hr' with h1 | ⟨ev, hev', hf⟩
        · rcases hone db' (by rw [hsea]) h1 with h2 | h2
          · exact Or.inl h2
          · exact Or.inr ⟨e, List.mem_cons_self _ _, h2⟩
        · exact Or.inr ⟨ev, List.mem_cons_of_mem _ hev', hf⟩

/-- C9 (amended): every action row inserted by the Action Materializer
has action-type `EVENT`, status `ACTIVE`, note
`title || description || "No title provided"` and context
`JSON.stringify({date, time, location})` of some event entry of the
parsed AI text.  The context is the structured `{date, time, location}`
object only — it omits `title` and `description`, the very fields the
note is synthesized from, so it does not preserve all source fields
needed to reconstruct the note (see the counterexample). -/
theorem extractAndSaveEmailActions_row_fields (db : Db) (emailId : Nat) (duckId : String)
    (txt : String) (r : ActionRow)
    (hr : r ∈ (extractAndSaveEmailActions db emailId duckId txt).1.emailActions)
    (hnew : r ∉ db.emailActions) :
    r.action_type = "EVENT" ∧ r.status = "ACTIVE" ∧ r.email_id = emailId ∧ r.duck_id = duckId
    ∧ ∃ parsed events ev, parseJson txt = some parsed
        ∧ getObjField parsed "events" = some (Json.arr events)
        ∧ ev ∈ events ∧ r.note = noteOf ev ∧ r.context = contextOf ev := by
  unfold extractAndSaveEmailActions at hr
  split at hr
  · exact absurd hr hnew
  · rename_i parsed hp
    split at hr
    · exact absurd hr hnew
    · split at hr
      · rename_i events hobj
        split at hr
        · rcases saveEventActionsLoop_mem emailId duckId events db r hr with h1 | ⟨ev, hev, hf⟩
          · exact absurd h1 hnew
          · exact ⟨hf.1, hf.2.1, hf.2.2.1, hf.2.2.2.1,
              parsed, events, ev, hp, hobj, hev, hf.2.2.2.2.1, hf.2.2.2.2.2⟩
        · exact absurd hr hnew
      · exact absurd hr hnew

/-- Witness for C9's amended theorem: the row inserted for `txtAlpha`
on the fixture store. -/
theorem extractAndSaveEmailActions_row_fields_witness :
    rowAlpha ∈ (extractAndSaveEmailActions fixtureDb 1 duckUuid txtAlpha).1.emailActions
    ∧ rowAlpha.action_type = "EVENT" ∧ rowAlpha.status = "ACTIVE" ∧ rowAlpha.email_id = 1
    ∧ rowAlpha.duck_id = duckUuid
    ∧ ∃ parsed events ev, parseJson txtAlpha = some parsed
        ∧ getObjField parsed "events" = some (Json.arr events)
        ∧ ev ∈ events ∧ rowAlpha.note = noteOf ev ∧ rowAlpha.context = contextOf ev :=
  ⟨by decide,
   extractAndSaveEmailActions_row_fields fixtureDb 1 duckUuid txtAlpha rowAlpha
     (by decide) (by decide)⟩

/-- C9 counterexample: two events differing only in their titles yield
rows with identical persisted contexts but different notes — the
`{date, time, location}` context does not preserve the source fields
the note was synthesized from, so the note cannot be reconstructed
from it. -/
theorem actionRow_context_note_not_reconstructible :
    ((extractAndSaveEmailActions (extractAndSaveEmailActions fixtureDb 1 duckUuid txtAlpha).1
        2 duckUuid txtBeta).1.emailActions.map (fun r => r.context))
      = ["\x7b\"date\":\"2024-05-01\"\x7d", "\x7b\"date\":\"2024-05-01\"\x7d"]
    ∧ ((extractAndSaveEmailActions (extractAndSaveEmailActions fixtureDb 1 duckUuid txtAlpha).1
        2 duckUuid txtBeta).1.emailActions.map (fun r => r.note))
      = [Json.str "Alpha", Json.str "Beta"]
    ∧ Json.str "Alpha" ≠ Json.str "Beta" := by
  refine ⟨by decide, by decide, by decide⟩

/-! ### C3 — per-record isolation and invocation status codes -/

/-- Unfolding of the record loop at a record whose bucket/key extraction
succeeds: the pipeline runs for it and the loop continues on the
resulting store. -/
theorem runRecords_cons_ok (env : Env) (db : Db) (rec : TriggerRecord) (bk : String × String)
    (rs : List TriggerRecord) (hbk : extractBucketKey rec = Except.ok bk) :
    runRecords env db (rec :: rs)
      = ((runRecords env (processRecord env db bk.1 bk.2).1 rs).1,
         (processRecord env db bk.1 bk.2).2
           :: (runRecords env (processRecord env db bk.1 bk.2).1 rs).2.1,
         (runRecords env (processRecord env db bk.1 bk.2).1 rs).2.2) := by
  conv_lhs => unfold runRecords
  rw [hbk]

/-- When every record has an extractable bucket/key, the loop attempts
every record — even if some pipeline runs fail — and no error escapes
it. -/
theorem runRecords_complete (env : Env) :
    ∀ (records : List TriggerRecord) (db : Db),
    (∀ r ∈ records, ∃ bk, extractBucketKey r = Except.ok bk) →
    (runRecords env db records).2.2 = none
    ∧ (runRecords env db records).2.1.length = records.length
  | [], _, _ => ⟨rfl, rfl⟩
  | r :: rs, db, hshape => by
    rcases hshape r (List.mem_cons_self _ _) with ⟨bk, hbk⟩
    obtain ⟨ih1, ih2⟩ := runRecords_complete env rs (processRecord env db bk.1 bk.2).1
      (fun x hx => hshape x (List.mem_cons_of_mem _ hx))
    rw [runRecords_cons_ok env db r bk rs hbk]
    exact ⟨ih1, by simp [ih2]⟩

/-- C3: per-record pipeline failures are caught and do not abort the
batch.  For every batch whose records all carry the direct bucket/key
shape, a successful connection setup yields status 200 with every record
attempted (the outcome log has one entry per record, errors included),
and a connection setup failure yields status 500 with no record
attempted and the store untouched. -/
theorem handler_batch_isolation (env : Env) (db : Db) (records : List TriggerRecord)
    (hshape : ∀ r ∈ records, ∃ bk, extractBucketKey r = Except.ok bk) :
    (env.dbConnect = Except.ok () →
        (handler env db records).1.statusCode = 200
        ∧ (handler env db records).2.2.length = records.length)
    ∧ (∀ msg, env.dbConnect = Except.error msg →
        (handler env db records).1.statusCode = 500
        ∧ (handler env db records).2 = (db, [])) := by
  constructor
  · intro hconn
    obtain ⟨hnone, hlen⟩ := runRecords_complete env records db hshape
    unfold handler
    rw [hconn]
    rcases hrr : runRecords env db records with ⟨db', outs, ab⟩
    rw [hrr] at hnone hlen
    have hab : ab = none := hnone
    have hlen' : outs.length = records.length := hlen
    subst hab
    exact ⟨rfl, hlen'⟩
  · intro msg hconn
    unfold handler
    rw [hconn]
    exact ⟨rfl, rfl⟩

/-- Witness for C3: a one-record batch of the direct shape under a
successful setup; the AI text is fixed, so the pipeline is attempted
exactly once. -/
theorem handler_batch_isolation_witness :
    (∀ r ∈ [directRecord], ∃ bk, extractBucketKey r = Except.ok bk)
    ∧ ((fixtureEnvOk.dbConnect = Except.ok () →
          (handler fixtureEnvOk fixtureDb [directRecord]).1.statusCode = 200
          ∧ (handler fixtureEnvOk fixtureDb [directRecord]).2.2.length = [directRecord].length)
       ∧ (∀ msg, fixtureEnvOk.dbConnect = Except.error msg →
          (handler fixtureEnvOk fixtureDb [directRecord]).1.statusCode = 500
          ∧ (handler fixtureEnvOk fixtureDb [directRecord]).2 = (fixtureDb, []))) := by
  have hs : ∀ r ∈ [directRecord], ∃ bk, extractBucketKey r = Except.ok bk := by
    intro r hr
    rw [List.mem_singleton] at hr
    subst hr
    exact ⟨("mail-bucket", "inbox/msg 1.txt"), rfl⟩
  exact ⟨hs, handler_batch_isolation fixtureEnvOk fixtureDb [directRecord] hs⟩

/-! ### C8 — supported trigger record shapes -/

/-- C8 counterexample: a record that only wraps a nested notification
has no `s3` member; the dispatcher does not extract the bucket/key from
its JSON payload and does not run the pipeline for it — instead the
whole invocation aborts with status 500, no record is attempted and the
store is untouched. -/
theorem handler_nested_notification_unsupported :
    (handler fixtureEnvOk fixtureDb [nestedRecord]).1.statusCode = 500
    ∧ (handler fixtureEnvOk fixtureDb [nestedRecord]).2.2 = []
    ∧ (handler fixtureEnvOk fixtureDb [nestedRecord]).2.1 = fixtureDb :=
  ⟨rfl, rfl, rfl⟩

/-- C8 (amended): only the direct object-store record shape is
supported.  For every record that directly names a bucket and key, the
dispatcher extracts them (decoding the key) and runs the pipeline for
that record before continuing with the rest of the batch; a record
carrying only a nested notification is not dispatched (see the
counterexample). -/
theorem handler_direct_shape_dispatches (env : Env) (db : Db) (e : S3Entity)
    (kcs : List Char) (rest : List TriggerRecord)
    (hdec : decodeURIComponentChars (plusToSpace e.objectKey.data) = some kcs) :
    extractBucketKey { s3 := some e, snsMessage := none }
      = Except.ok (e.bucketName, String.mk kcs)
    ∧ runRecords env db ({ s3 := some e, snsMessage := none } :: rest)
      = ((runRecords env (processRecord env db e.bucketName (String.mk kcs)).1 rest).1,
         (processRecord env db e.bucketName (String.mk kcs)).2
           :: (runRecords env (processRecord env db e.bucketName (String.mk kcs)).1 rest).2.1,
         (runRecords env (processRecord env db e.bucketName (String.mk kcs)).1 rest).2.2) := by
  have h1 : extractBucketKey { s3 := some e, snsMessage := none }
      = Except.ok (e.bucketName, String.mk kcs) := by
    simp [extractBucketKey, hdec]
  exact ⟨h1, runRecords_cons_ok env db _ (e.bucketName, String.mk kcs) rest h1⟩

/-- Witness for C8's amended theorem at a concrete record whose key
carries a `+` and a percent-escape. -/
theorem handler_direct_shape_dispatches_witness :
    decodeURIComponentChars (plusToSpace ("inbox/msg+1%2Etxt").data) = some ("inbox/msg 1.txt").data
    ∧ (extractBucketKey { s3 := some ⟨"mail-bucket", "inbox/msg+1%2Etxt"⟩, snsMessage := none }
        = Except.ok ("mail-bucket", String.mk ("inbox/msg 1.txt").data)
      ∧ runRecords fixtureEnvOk fixtureDb
          ({ s3 := some ⟨"mail-bucket", "inbox/msg+1%2Etxt"⟩, snsMessage := none } :: [])
        = ((runRecords fixtureEnvOk
              (processRecord fixtureEnvOk fixtureDb "mail-bucket"
                (String.mk ("inbox/msg 1.txt").data)).1 []).1,
           (processRecord fixtureEnvOk fixtureDb "mail-bucket"
              (String.mk ("inbox/msg 1.txt").data)).2
             :: (runRecords fixtureEnvOk
                  (processRecord fixtureEnvOk fixtureDb "mail-bucket"
                    (String.mk ("inbox/msg 1.txt").data)).1 []).2.1,
           (runRecords fixtureEnvOk
              (processRecord fixtureEnvOk fixtureDb "mail-bucket"
                (String.mk ("inbox/msg 1.txt").data)).1 []).2.2)) :=
  ⟨by decide,
   handler_direct_shape_dispatches fixtureEnvOk fixtureDb
     ⟨"mail-bucket", "inbox/msg+1%2Etxt"⟩ ("inbox/msg 1.txt").data [] (by decide)⟩

/-! ### C10 — connectivity probes guard each record -/

/-- C10: the two connectivity probes run before the email fetch and
before any store write for a record.  If either probe fails the record
is abandoned with a caught error: the store is unchanged (in particular
no ProcessedEmail row is created), the outcome is independent of the
fetch/AI collaborators and of the store contents touched later, and
subsequent records of the batch are still processed from the same
store. -/
theorem processRecord_probe_failure_guard (env env2 : Env) (db : Db) (bucket key : String)
    (hp : env.internetUp = false ∨ env.openaiUp = false)
    (h2i : env2.internetUp = env.internetUp) (h2o : env2.openaiUp = env.openaiUp) :
    (processRecord env db bucket key).1 = db
    ∧ (processRecord env db bucket key).2.isSome = true
    ∧ processRecord env2 db bucket key = processRecord env db bucket key
    ∧ ∀ (rec : TriggerRecord) (bk : String × String) (rs : List TriggerRecord),
        extractBucketKey rec = Except.ok bk →
        runRecords env db (rec :: rs)
          = ((runRecords env db rs).1,
             (processRecord env db bk.1 bk.2).2 :: (runRecords env db rs).2.1,
             (runRecords env db rs).2.2) := by
  have hfail : ∀ (d : Db) (b k : String),
      (processRecord env d b k).1 = d
      ∧ (processRecord env d b k).2.isSome = true
      ∧ processRecord env2 d b k = processRecord env d b k := by
    intro d b k
    rcases hp with h | h
    · refine ⟨?_, ?_, ?_⟩ <;>
        simp [processRecord, testInternetConnection, testOpenAIConnection, h, h2i, h2o]
    · by_cases hi : env.internetUp = true
      · refine ⟨?_, ?_, ?_⟩ <;>
          simp [processRecord, testInternetConnection, testOpenAIConnection, hi, h, h2i, h2o]
      · have hif : env.internetUp = false := by
          cases hx : env.internetUp
          · rfl
          · exact absurd hx hi
        refine ⟨?_, ?_, ?_⟩ <;>
          simp [processRecord, testInternetConnection, testOpenAIConnection, hif, h, h2i, h2o]
  obtain ⟨h1, h2, h3⟩ := hfail db bucket key
  refine ⟨h1, h2, h3, ?_⟩
  intro rec bk rs hbk
  rw [runRecords_cons_ok env db rec bk rs hbk, (hfail db bk.1 bk.2).1]

/-- Witness for C10: the internet probe fails in `fixtureEnvNoNet`; a
direct-shape record is abandoned and the loop advances. -/
theorem processRecord_probe_failure_guard_witness :
    (fixtureEnvNoNet.internetUp = false ∨ fixtureEnvNoNet.openaiUp = false)
    ∧ ((processRecord fixtureEnvNoNet fixtureDb "mail-bucket" "k").1 = fixtureDb
       ∧ (processRecord fixtureEnvNoNet fixtureDb "mail-bucket" "k").2.isSome = true
       ∧ processRecord fixtureEnvNoNet fixtureDb "mail-bucket" "k"
           = processRecord fixtureEnvNoNet fixtureDb "mail-bucket" "k"
       ∧ ∀ (rec : TriggerRecord) (bk : String × String) (rs : List TriggerRecord),
           extractBucketKey rec = Except.ok bk →
           runRecords fixtureEnvNoNet fixtureDb (rec :: rs)
             = ((runRecords fixtureEnvNoNet fixtureDb rs).1,
                (processRecord fixtureEnvNoNet fixtureDb bk.1 bk.2).2
                  :: (runRecords fixtureEnvNoNet fixtureDb rs).2.1,
                (runRecords fixtureEnvNoNet fixtureDb rs).2.2)) :=
  ⟨Or.inl rfl,
   processRecord_probe_failure_guard fixtureEnvNoNet fixtureEnvNoNet fixtureDb "mail-bucket" "k"
     (Or.inl rfl) rfl rfl⟩
